import Mathlib

/-!
Verification development for the batched photon propagation engine of
`src/model.py` (class `Model`).

The TensorFlow graph is embedded shallowly, photon lane by photon lane:

* `Vec3 α` models a single row of a `shape (?, 3)` tensor.
* `PhotonState` models one lane of the loop variables
  `d_abs, r, v, t, t_layer_0, t_layer_1` of `tf_propagate`.
* The external collaborators (`self._ice.tf_sample_scatter`,
  `self._detector.tf_check_for_hits`) and the randomised re-scatter
  `self.tf_scatter` of one loop iteration are abstracted as an `Env`
  of per-iteration oracles; a run of the loop consumes a stream
  `envs : ℕ → Env`, one oracle triple per iteration.
* The propagation state is over `ℚ` (exact arithmetic, executable);
  the quaternion scattering math of `tf_scatter` is over `ℝ`, where
  `tf.sqrt` is `Real.sqrt`.

The one place the embedding rewrites an expression of the source is the
cutoff-radius test of `body`: the source compares Euclidean norms,
`tf.norm(r - c) < CUTOFF_RADIUS * np.linalg.norm([l_x,l_y,l_z]) / 2`, and
the embedding compares their squares scaled by 4,
`4 * normSq (r - c) < CUTOFF_RADIUS ^ 2 * normSq ⟨l_x, l_y, l_z⟩`, which
is equivalent for the nonnegative cutoff fractions the configuration
uses, `Real.sqrt` being strictly monotone on nonnegatives.
-/

/-- One row of a `shape (?, 3)` tensor: a 3-vector with components in `α`. -/
@[ext]
structure Vec3 (α : Type) where
  x : α
  y : α
  z : α
deriving DecidableEq

namespace Vec3

variable {α : Type} [Field α]

instance : Add (Vec3 α) := ⟨fun a b => ⟨a.x + b.x, a.y + b.y, a.z + b.z⟩⟩

instance : Sub (Vec3 α) := ⟨fun a b => ⟨a.x - b.x, a.y - b.y, a.z - b.z⟩⟩

instance : SMul α (Vec3 α) := ⟨fun c v => ⟨c * v.x, c * v.y, c * v.z⟩⟩

instance : Zero (Vec3 α) := ⟨⟨0, 0, 0⟩⟩

@[simp] theorem add_x (a b : Vec3 α) : (a + b).x = a.x + b.x := rfl

@[simp] theorem add_y (a b : Vec3 α) : (a + b).y = a.y + b.y := rfl

@[simp] theorem add_z (a b : Vec3 α) : (a + b).z = a.z + b.z := rfl

@[simp] theorem sub_x (a b : Vec3 α) : (a - b).x = a.x - b.x := rfl

@[simp] theorem sub_y (a b : Vec3 α) : (a - b).y = a.y - b.y := rfl

@[simp] theorem sub_z (a b : Vec3 α) : (a - b).z = a.z - b.z := rfl

@[simp] theorem smul_x (c : α) (v : Vec3 α) : (c • v).x = c * v.x := rfl

@[simp] theorem smul_y (c : α) (v : Vec3 α) : (c • v).y = c * v.y := rfl

@[simp] theorem smul_z (c : α) (v : Vec3 α) : (c • v).z = c * v.z := rfl

@[simp] theorem zero_x : (0 : Vec3 α).x = 0 := rfl

@[simp] theorem zero_y : (0 : Vec3 α).y = 0 := rfl

@[simp] theorem zero_z : (0 : Vec3 α).z = 0 := rfl

/-- Componentwise dot product, `tf.reduce_sum(a * b, axis=-1)` for one row. -/
def dot (a b : Vec3 α) : α := a.x * b.x + a.y * b.y + a.z * b.z

/-- One row of `tf.cross(a, b)`. -/
def cross (a b : Vec3 α) : Vec3 α :=
  ⟨a.y * b.z - a.z * b.y, a.z * b.x - a.x * b.z, a.x * b.y - a.y * b.x⟩

/-- Squared Euclidean norm of one row; `tf.norm(v) ^ 2`. -/
def normSq (v : Vec3 α) : α := v.x ^ 2 + v.y ^ 2 + v.z ^ 2

@[simp] theorem smul_zero_vec (v : Vec3 α) : (0 : α) • v = 0 := by
  ext <;> simp

@[simp] theorem add_zero_vec (v : Vec3 α) : v + 0 = v := by
  ext <;> simp

end Vec3

open Vec3

/-- One photon lane of the loop variables of `tf_propagate`:
`d_abs` (remaining absorption distance), `r` (position), `v` (direction),
`t` (elapsed time), `t_layer_0` and `t_layer_1` (layered times). -/
@[ext]
structure PhotonState where
  d_abs : ℚ
  r : Vec3 ℚ
  v : Vec3 ℚ
  t : ℚ
  t_layer_0 : ℚ
  t_layer_1 : ℚ
deriving DecidableEq

/-- The per-iteration oracles consumed by one execution of `body`:
`tf_sample_scatter` is `self._ice.tf_sample_scatter` (scatter distance as a
function of position), `tf_check_for_hits` is
`self._detector.tf_check_for_hits` (hit fraction of the step), and
`tf_scatter_draw` is the realisation of the randomised `self.tf_scatter`
for this iteration (new direction as a function of the old one). -/
structure Env where
  tf_sample_scatter : Vec3 ℚ → ℚ
  tf_check_for_hits : Vec3 ℚ → ℚ → Vec3 ℚ → ℚ
  tf_scatter_draw : Vec3 ℚ → Vec3 ℚ

/-- Static configuration of the run: `settings.CUTOFF_RADIUS` (`none` when
the Python truthiness test `if settings.CUTOFF_RADIUS:` fails, so the
cutoff block is absent from the graph) and the detector extents
`self._detector._l_x`, `_l_y`, `_l_z`. -/
structure Config where
  cutoff : Option ℚ
  l_x : ℚ
  l_y : ℚ
  l_z : ℚ

/-- Geometric center of the detector volume,
`np.array([l_x/2, l_y/2, l_z/2])`. -/
def Config.center (cfg : Config) : Vec3 ℚ := ⟨cfg.l_x / 2, cfg.l_y / 2, cfg.l_z / 2⟩

/-- Extent vector `[l_x, l_y, l_z]` of the detector. -/
def Config.extent (cfg : Config) : Vec3 ℚ := ⟨cfg.l_x, cfg.l_y, cfg.l_z⟩

/-- One photon lane of the loop body `body` of `tf_propagate`, line by line:
clamp `d_abs` to be nonnegative, take `d = min(d_scat, d_abs)`, zero
`d_abs` on a detector hit (`rel_d_til_hit < 1`) else decrement it by `d`,
advance `r` by `d * rel_d_til_hit * v`, accumulate `t` and the layer time
of the updated position's depth band (`r.z < 50` versus `r.z ≥ 50`),
apply the cutoff-radius freeze when configured (squared-norm form, see
the file comment), and re-scatter the directions of photons whose
`d_abs` is still positive. -/
def body (cfg : Config) (env : Env) (s : PhotonState) : PhotonState :=
  let d_scat := env.tf_sample_scatter s.r
  let d_abs1 := if 0 < s.d_abs then s.d_abs else 0
  let d := if d_scat < d_abs1 then d_scat else d_abs1
  let rel_d_til_hit := env.tf_check_for_hits s.r d s.v
  let d_abs2 := if rel_d_til_hit < 1 then 0 else d_abs1 - d
  let r2 := s.r + (d * rel_d_til_hit) • s.v
  let t_step := d * rel_d_til_hit
  let t2 := s.t + t_step
  let tl0 := s.t_layer_0 + (if r2.z < 50 then t_step else 0)
  let tl1 := s.t_layer_1 + (if 50 ≤ r2.z then t_step else 0)
  let d_abs3 :=
    match cfg.cutoff with
    | none => d_abs2
    | some c =>
        if 4 * normSq (r2 - cfg.center) < c ^ 2 * normSq cfg.extent
        then d_abs2 else 0
  let v2 := if 0 < d_abs3 then env.tf_scatter_draw s.v else s.v
  { d_abs := d_abs3, r := r2, v := v2, t := t2, t_layer_0 := tl0, t_layer_1 := tl1 }

/-- One photon lane after `n` iterations of `body`, iteration `k` using
oracle `envs k`. -/
def iterPhoton (cfg : Config) (envs : ℕ → Env) : ℕ → PhotonState → PhotonState
  | 0, s => s
  | n + 1, s => body cfg (envs n) (iterPhoton cfg envs n s)

/-- One iteration of `body` over the whole batch (all lanes in lock-step). -/
def stepBatch (cfg : Config) (env : Env) (b : List PhotonState) : List PhotonState :=
  b.map (body cfg env)

/-- Loop guard of the `tf.while_loop`: `0 < tf.reduce_max(d_abs)`, which for
a batch is: some lane still has `0 < d_abs`. -/
def batchActive (b : List PhotonState) : Bool :=
  b.any fun s => decide (0 < s.d_abs)

/-- The `tf.while_loop` of `tf_propagate`, run for at most `fuel` iterations
starting at iteration number `k`: while the guard holds, apply `body` with
oracle `envs k` and continue. -/
def tf_propagate (cfg : Config) (envs : ℕ → Env) : ℕ → ℕ → List PhotonState → List PhotonState
  | _, 0, b => b
  | k, fuel + 1, b =>
      if batchActive b then tf_propagate cfg envs (k + 1) fuel (stepBatch cfg (envs k) b)
      else b

/-- Initial loop variables of `tf_propagate` for one lane: `d_abs` seeded by
`self._ice.tf_sample_absorption`, position `r0`, direction `v0`, and all
three time accumulators `tf.zeros`. -/
def initPhoton (r0 v0 : Vec3 ℚ) (a : ℚ) : PhotonState :=
  { d_abs := a, r := r0, v := v0, t := 0, t_layer_0 := 0, t_layer_1 := 0 }

/-- The position tiling of `tf_init_cascades`:
`tf.tile(r_cascades, [n, 1])` stacks `n` copies of the origin list. -/
def tf_tile {α : Type} (l : List α) : ℕ → List α
  | 0 => []
  | n + 1 => l ++ tf_tile l n

/-! ### Helper lemmas -/

theorem ite_lt_min (a b : ℚ) : (if a < b then a else b) = min a b := by
  rcases lt_or_le a b with h | h
  · rw [if_pos h, min_eq_left h.le]
  · rw [if_neg (not_lt.mpr h), min_eq_right h]

theorem ite_pos_max (a : ℚ) : (if 0 < a then a else 0) = max a 0 := by
  rcases lt_or_le 0 a with h | h
  · rw [if_pos h, max_eq_left h.le]
  · rw [if_neg (not_lt.mpr h), max_eq_right h]

/-- Concrete oracle triple used by witnesses: scatter distance 10
everywhere, hit fraction 1 always, identity re-scatter draw. -/
def envC : Env := ⟨fun _ => 10, fun _ _ _ => 1, fun v => v⟩

/-- Concrete configuration without a cutoff radius. -/
def cfgNone : Config := ⟨none, 0, 0, 0⟩

/-- Concrete photon lane with absorption budget 5. -/
def s5 : PhotonState := initPhoton ⟨0, 0, 0⟩ ⟨1, 0, 0⟩ 5

/-- Concrete frozen photon lane (absorption budget 0). -/
def sF : PhotonState := { d_abs := 0, r := ⟨1, 2, 3⟩, v := ⟨0, 0, 1⟩, t := 7, t_layer_0 := 4, t_layer_1 := 3 }

/-- C1: per-iteration transition of the propagation loop: with
`d_abs' = max(d_abs, 0)` and `d = min(d_scat, d_abs')`, when no cutoff
radius is configured the iteration sets `d_abs` to `0` if the hit
fraction is `< 1` and to `d_abs' - d` otherwise, and advances the
position by `d * hit_fraction * direction`. -/
theorem body_step_transition (cfg : Config) (env : Env) (s : PhotonState)
    (hcut : cfg.cutoff = none) :
    (body cfg env s).d_abs =
      (if env.tf_check_for_hits s.r
            (min (env.tf_sample_scatter s.r) (max s.d_abs 0)) s.v < 1
       then 0
       else max s.d_abs 0 - min (env.tf_sample_scatter s.r) (max s.d_abs 0)) ∧
    (body cfg env s).r =
      s.r + (min (env.tf_sample_scatter s.r) (max s.d_abs 0) *
             env.tf_check_for_hits s.r
               (min (env.tf_sample_scatter s.r) (max s.d_abs 0)) s.v) • s.v := by
  simp only [body, hcut, ite_pos_max, ite_lt_min]
  constructor <;> trivial

theorem body_step_transition_witness :
    cfgNone.cutoff = none ∧
    ((body cfgNone envC s5).d_abs =
      (if envC.tf_check_for_hits s5.r
            (min (envC.tf_sample_scatter s5.r) (max s5.d_abs 0)) s5.v < 1
       then 0
       else max s5.d_abs 0 - min (envC.tf_sample_scatter s5.r) (max s5.d_abs 0)) ∧
    (body cfgNone envC s5).r =
      s5.r + (min (envC.tf_sample_scatter s5.r) (max s5.d_abs 0) *
             envC.tf_check_for_hits s5.r
               (min (envC.tf_sample_scatter s5.r) (max s5.d_abs 0)) s5.v) • s5.v) :=
  ⟨rfl, body_step_transition cfgNone envC s5 rfl⟩

/-- A frozen lane (`d_abs = 0`) is a fixed point of one application of the
loop body, provided the medium's scatter distance at its position is
positive. -/
theorem body_frozen (cfg : Config) (env : Env) (s : PhotonState)
    (h0 : s.d_abs = 0) (hscat : 0 < env.tf_sample_scatter s.r) :
    body cfg env s = s := by
  have hnd : ¬ (env.tf_sample_scatter s.r < 0) := not_lt.mpr hscat.le
  rcases s with ⟨da, r, v, t, l0, l1⟩
  simp only at h0
  subst h0
  rcases hc : cfg.cutoff with _ | c <;>
    simp [body, hc, hnd]

/-- C2: freezing idempotence: a photon lane whose `d_abs` is `0` is left
exactly unchanged (all six state fields) by every subsequent iteration
of the loop body, provided the medium's sampled scatter distances are
positive. -/
theorem frozen_forever (cfg : Config) (envs : ℕ → Env) (s : PhotonState)
    (h0 : s.d_abs = 0)
    (hscat : ∀ k r, 0 < (envs k).tf_sample_scatter r) (n : ℕ) :
    iterPhoton cfg envs n s = s := by
  induction n with
  | zero => rfl
  | succ n ih =>
      rw [iterPhoton, ih]
      exact body_frozen cfg (envs n) s h0 (hscat n s.r)

theorem frozen_forever_witness :
    sF.d_abs = 0 ∧
    (∀ (k : ℕ) (r : Vec3 ℚ), 0 < ((fun _ : ℕ => envC) k).tf_sample_scatter r) ∧
    iterPhoton cfgNone (fun _ : ℕ => envC) 5 sF = sF :=
  ⟨rfl, fun _ _ => by norm_num [envC],
   frozen_forever cfgNone (fun _ : ℕ => envC) sF rfl (fun _ _ => by norm_num [envC]) 5⟩

/-- C3: monotone decrease of the absorption budget: if `d_abs` is
nonnegative at loop entry and the sampled scatter distance is positive,
one iteration of the loop body leaves `d_abs` no larger than before and
still nonnegative. -/
theorem body_dabs_monotone (cfg : Config) (env : Env) (s : PhotonState)
    (h0 : 0 ≤ s.d_abs) (hscat : 0 < env.tf_sample_scatter s.r) :
    (body cfg env s).d_abs ≤ s.d_abs ∧ 0 ≤ (body cfg env s).d_abs := by
  rcases hc : cfg.cutoff with _ | c <;>
    (constructor <;> (simp only [body, hc]; split_ifs <;> linarith))

theorem body_dabs_monotone_witness :
    (0 : ℚ) ≤ s5.d_abs ∧ 0 < envC.tf_sample_scatter s5.r ∧
    ((body cfgNone envC s5).d_abs ≤ s5.d_abs ∧ 0 ≤ (body cfgNone envC s5).d_abs) :=
  ⟨by norm_num [s5, initPhoton], by norm_num [envC],
   body_dabs_monotone cfgNone envC s5 (by norm_num [s5, initPhoton]) (by norm_num [envC])⟩

/-- C8: post-step layer attribution: each iteration adds the time
increment (the change of `t`) to `t_layer_0` exactly when the updated
position's z-coordinate is `< 50`, and to `t_layer_1` exactly when it is
`≥ 50`; the attribution reads only the post-step position. -/
theorem body_layer_attribution (cfg : Config) (env : Env) (s : PhotonState) :
    (body cfg env s).t_layer_0 =
      s.t_layer_0 +
        (if (body cfg env s).r.z < 50 then (body cfg env s).t - s.t else 0) ∧
    (body cfg env s).t_layer_1 =
      s.t_layer_1 +
        (if 50 ≤ (body cfg env s).r.z then (body cfg env s).t - s.t else 0) := by
  simp only [body]
  constructor <;> (split_ifs <;> ring)

/-- One iteration of the body changes `t_layer_0 + t_layer_1` by exactly the
change of `t` (the increment lands in exactly one of the two layers). -/
theorem body_partition (cfg : Config) (env : Env) (s : PhotonState) :
    (body cfg env s).t_layer_0 + (body cfg env s).t_layer_1 - (body cfg env s).t =
      s.t_layer_0 + s.t_layer_1 - s.t := by
  simp only [body]
  split_ifs <;> first | ring1 | linarith

/-- One iteration of the body never decreases `t`, given a positive scatter
distance and a nonnegative hit fraction at this lane's position. -/
theorem body_t_mono (cfg : Config) (env : Env) (s : PhotonState)
    (hscat : 0 < env.tf_sample_scatter s.r)
    (hhit : ∀ d, 0 ≤ env.tf_check_for_hits s.r d s.v) :
    s.t ≤ (body cfg env s).t := by
  simp only [body]
  split_ifs <;>
    nlinarith [hhit (env.tf_sample_scatter s.r), hhit s.d_abs, hhit (0 : ℚ), hscat]

/-- C5: time partition invariant: the initial loop variables have
`t = t_layer_0 = t_layer_1 = 0`, after every iteration
`t_layer_0 + t_layer_1 = t` holds exactly, and `t` never decreases from
one iteration to the next, given positive scatter distances and
nonnegative hit fractions. -/
theorem time_partition (cfg : Config) (envs : ℕ → Env) (r0 v0 : Vec3 ℚ) (a : ℚ)
    (hscat : ∀ k r, 0 < (envs k).tf_sample_scatter r)
    (hhit : ∀ k r d v, 0 ≤ (envs k).tf_check_for_hits r d v) (n : ℕ) :
    (initPhoton r0 v0 a).t = 0 ∧ (initPhoton r0 v0 a).t_layer_0 = 0 ∧
    (initPhoton r0 v0 a).t_layer_1 = 0 ∧
    (iterPhoton cfg envs n (initPhoton r0 v0 a)).t_layer_0 +
      (iterPhoton cfg envs n (initPhoton r0 v0 a)).t_layer_1 =
      (iterPhoton cfg envs n (initPhoton r0 v0 a)).t ∧
    (iterPhoton cfg envs n (initPhoton r0 v0 a)).t ≤
      (iterPhoton cfg envs (n + 1) (initPhoton r0 v0 a)).t := by
  refine ⟨rfl, rfl, rfl, ?_, ?_⟩
  · induction n with
    | zero => norm_num [iterPhoton, initPhoton]
    | succ n ih =>
        have h := body_partition cfg (envs n) (iterPhoton cfg envs n (initPhoton r0 v0 a))
        rw [iterPhoton]
        linarith
  · rw [iterPhoton]
    exact body_t_mono cfg (envs n) _ (hscat n _) (fun d => hhit n _ d _)

theorem time_partition_witness :
    (∀ (k : ℕ) (r : Vec3 ℚ), 0 < ((fun _ : ℕ => envC) k).tf_sample_scatter r) ∧
    (∀ (k : ℕ) (r : Vec3 ℚ) (d : ℚ) (v : Vec3 ℚ),
      0 ≤ ((fun _ : ℕ => envC) k).tf_check_for_hits r d v) ∧
    ((initPhoton ⟨0, 0, 0⟩ ⟨1, 0, 0⟩ 7).t = 0 ∧
     (initPhoton ⟨0, 0, 0⟩ ⟨1, 0, 0⟩ 7).t_layer_0 = 0 ∧
     (initPhoton ⟨0, 0, 0⟩ ⟨1, 0, 0⟩ 7).t_layer_1 = 0 ∧
     (iterPhoton cfgNone (fun _ : ℕ => envC) 2 (initPhoton ⟨0, 0, 0⟩ ⟨1, 0, 0⟩ 7)).t_layer_0 +
       (iterPhoton cfgNone (fun _ : ℕ => envC) 2 (initPhoton ⟨0, 0, 0⟩ ⟨1, 0, 0⟩ 7)).t_layer_1 =
       (iterPhoton cfgNone (fun _ : ℕ => envC) 2 (initPhoton ⟨0, 0, 0⟩ ⟨1, 0, 0⟩ 7)).t ∧
     (iterPhoton cfgNone (fun _ : ℕ => envC) 2 (initPhoton ⟨0, 0, 0⟩ ⟨1, 0, 0⟩ 7)).t ≤
       (iterPhoton cfgNone (fun _ : ℕ => envC) (2 + 1) (initPhoton ⟨0, 0, 0⟩ ⟨1, 0, 0⟩ 7)).t) :=
  ⟨fun _ _ => by norm_num [envC], fun _ _ _ _ => by norm_num [envC],
   time_partition cfgNone (fun _ : ℕ => envC) ⟨0, 0, 0⟩ ⟨1, 0, 0⟩ 7
     (fun _ _ => by norm_num [envC]) (fun _ _ _ _ => by norm_num [envC]) 2⟩

/-- A batch whose guard is already false is returned unchanged by the
while loop, whatever the fuel. -/
theorem tf_propagate_inactive (cfg : Config) (envs : ℕ → Env)
    (b : List PhotonState) (h : batchActive b = false) :
    ∀ (fuel k : ℕ), tf_propagate cfg envs k fuel b = b := by
  intro fuel
  induction fuel with
  | zero => intro k; rfl
  | succ fuel ih => intro k; simp [tf_propagate, h]

/-- One scenario step: with scatter distance 10 everywhere, hit fraction 1
always, no cutoff, `d_abs = 5` and `t = 0`, one iteration of the body
zeroes `d_abs`, sets `t` to 5 and advances the position by five times the
direction. -/
theorem scenario_step (cfg : Config) (env : Env) (s : PhotonState)
    (hcut : cfg.cutoff = none)
    (hscat : ∀ r, env.tf_sample_scatter r = 10)
    (hhit : ∀ r d v, env.tf_check_for_hits r d v = 1)
    (hda : s.d_abs = 5) (ht : s.t = 0) :
    (body cfg env s).d_abs = 0 ∧ (body cfg env s).t = 5 ∧
    (body cfg env s).r = s.r + (5 : ℚ) • s.v := by
  norm_num [body, hcut, hscat, hhit, hda, ht]

/-- C6: deterministic one-step scenario: scatter distance 10 everywhere,
initial absorption budget 5 per photon, hit fraction 1 always, no cutoff
radius: the loop stops after exactly one iteration, and every photon ends
with `d_abs = 0`, `t = 5` and position advanced by `5 * direction`. -/
theorem scenario_one_step (cfg : Config) (envs : ℕ → Env)
    (b : List PhotonState) (fuel : ℕ)
    (hcut : cfg.cutoff = none)
    (hscat : ∀ k r, (envs k).tf_sample_scatter r = 10)
    (hhit : ∀ k r d v, (envs k).tf_check_for_hits r d v = 1)
    (hb : ∀ s ∈ b, s.d_abs = 5 ∧ s.t = 0)
    (hfuel : 1 ≤ fuel) :
    tf_propagate cfg envs 0 fuel b = stepBatch cfg (envs 0) b ∧
    batchActive (stepBatch cfg (envs 0) b) = false ∧
    ∀ s ∈ b, (body cfg (envs 0) s).d_abs = 0 ∧ (body cfg (envs 0) s).t = 5 ∧
      (body cfg (envs 0) s).r = s.r + (5 : ℚ) • s.v := by
  have hstep : ∀ s ∈ b, (body cfg (envs 0) s).d_abs = 0 ∧ (body cfg (envs 0) s).t = 5 ∧
      (body cfg (envs 0) s).r = s.r + (5 : ℚ) • s.v :=
    fun s hs => scenario_step cfg (envs 0) s hcut (hscat 0) (hhit 0) (hb s hs).1 (hb s hs).2
  have hinact : batchActive (stepBatch cfg (envs 0) b) = false := by
    simp only [batchActive, stepBatch, List.any_map, List.any_eq_false, Function.comp]
    intro s hs
    simp [(hstep s hs).1]
  obtain ⟨m, rfl⟩ : ∃ m, fuel = m + 1 := ⟨fuel - 1, (Nat.succ_pred_eq_of_pos hfuel).symm⟩
  refine ⟨?_, hinact, hstep⟩
  cases hact : batchActive b with
  | false =>
      have hb0 : b = [] := by
        cases b with
        | nil => rfl
        | cons s ss =>
            exfalso
            simp only [batchActive, List.any_eq_false] at hact
            have h5 := (hb s (by simp)).1
            have := hact s (by simp)
            rw [h5] at this
            norm_num at this
      subst hb0
      simp [tf_propagate, stepBatch, batchActive]
  | true =>
      rw [tf_propagate, hact, if_pos rfl]
      exact tf_propagate_inactive cfg envs _ hinact m 1

theorem scenario_one_step_witness :
    cfgNone.cutoff = none ∧
    (∀ (k : ℕ) (r : Vec3 ℚ), ((fun _ : ℕ => envC) k).tf_sample_scatter r = 10) ∧
    (∀ (k : ℕ) (r : Vec3 ℚ) (d : ℚ) (v : Vec3 ℚ),
      ((fun _ : ℕ => envC) k).tf_check_for_hits r d v = 1) ∧
    (∀ s ∈ [s5], s.d_abs = 5 ∧ s.t = 0) ∧ (1 ≤ 3) ∧
    (tf_propagate cfgNone (fun _ : ℕ => envC) 0 3 [s5] = stepBatch cfgNone envC [s5] ∧
     batchActive (stepBatch cfgNone envC [s5]) = false ∧
     ∀ s ∈ [s5], (body cfgNone envC s).d_abs = 0 ∧ (body cfgNone envC s).t = 5 ∧
       (body cfgNone envC s).r = s.r + (5 : ℚ) • s.v) := by
  have hb : ∀ s ∈ [s5], s.d_abs = 5 ∧ s.t = 0 := by
    intro s hs
    rw [List.mem_singleton] at hs
    subst hs
    exact ⟨rfl, rfl⟩
  exact ⟨rfl, fun _ _ => rfl, fun _ _ _ _ => rfl, hb, by norm_num,
    scenario_one_step cfgNone (fun _ : ℕ => envC) [s5] 3 rfl (fun _ _ => rfl)
      (fun _ _ _ _ => rfl) hb (by norm_num)⟩

/-- C7: cutoff-radius freezing: when a cutoff radius `c` is configured,
a photon whose post-step position is at or beyond the cutoff distance
from the detector center has its `d_abs` zeroed in the same iteration
(and, the freeze preceding the re-scatter step, keeps its direction),
while a photon strictly inside keeps the `d_abs` value computed by the
absorption update of this iteration; the test reads the post-step
position. -/
theorem body_cutoff_freeze (cfg : Config) (env : Env) (s : PhotonState) (c : ℚ)
    (hc : cfg.cutoff = some c) :
    (c ^ 2 * normSq cfg.extent ≤ 4 * normSq ((body cfg env s).r - cfg.center) →
       (body cfg env s).d_abs = 0 ∧ (body cfg env s).v = s.v) ∧
    (4 * normSq ((body cfg env s).r - cfg.center) < c ^ 2 * normSq cfg.extent →
       (body cfg env s).d_abs =
         (if env.tf_check_for_hits s.r
               (min (env.tf_sample_scatter s.r) (max s.d_abs 0)) s.v < 1
          then 0
          else max s.d_abs 0 - min (env.tf_sample_scatter s.r) (max s.d_abs 0))) := by
  simp only [body, hc, ite_pos_max, ite_lt_min]
  constructor
  · intro h
    rw [if_neg (not_lt.mpr h)]
    simp
  · intro h
    rw [if_pos h]

/-- Concrete configuration with cutoff fraction 1 and degenerate extents. -/
def cfgCut : Config := ⟨some 1, 0, 0, 0⟩

theorem body_cutoff_freeze_witness :
    cfgCut.cutoff = some 1 ∧
    (((1 : ℚ) ^ 2 * normSq cfgCut.extent ≤
        4 * normSq ((body cfgCut envC s5).r - cfgCut.center) →
       (body cfgCut envC s5).d_abs = 0 ∧ (body cfgCut envC s5).v = s5.v) ∧
    (4 * normSq ((body cfgCut envC s5).r - cfgCut.center) <
        (1 : ℚ) ^ 2 * normSq cfgCut.extent →
       (body cfgCut envC s5).d_abs =
         (if envC.tf_check_for_hits s5.r
               (min (envC.tf_sample_scatter s5.r) (max s5.d_abs 0)) s5.v < 1
          then 0
          else max s5.d_abs 0 - min (envC.tf_sample_scatter s5.r) (max s5.d_abs 0)))) :=
  ⟨rfl, body_cutoff_freeze cfgCut envC s5 1 rfl⟩

/-! ### Cascade initialization (`tf_init_cascades`) -/

theorem tf_tile_length {α : Type} (l : List α) (n : ℕ) :
    (tf_tile l n).length = n * l.length := by
  induction n with
  | zero => simp [tf_tile]
  | succ n ih => simp [tf_tile, ih, Nat.succ_mul, Nat.add_comm]

theorem tf_tile_mem {α : Type} {l : List α} {n : ℕ} {a : α}
    (h : a ∈ tf_tile l n) : a ∈ l := by
  induction n with
  | zero => simp [tf_tile] at h
  | succ n ih =>
      rw [tf_tile, List.mem_append] at h
      rcases h with h | h
      · exact h
      · exact ih h

theorem tf_tile_count {α : Type} [DecidableEq α] (l : List α) (n : ℕ) (a : α) :
    (tf_tile l n).count a = n * l.count a := by
  induction n with
  | zero => simp [tf_tile]
  | succ n ih => simp [tf_tile, List.count_append, ih, Nat.succ_mul, Nat.add_comm]

/-- C9: cascade replication count: tiling `C` pairwise-distinct cascade
origins `reps = B/C` times yields a position batch of `B = reps * C`
entries, every entry is one of the origins, and each origin occurs
exactly `reps` times. -/
theorem cascade_replication (origins : List (Vec3 ℚ)) (reps : ℕ)
    (hnd : origins.Nodup) :
    (tf_tile origins reps).length = reps * origins.length ∧
    (∀ p ∈ tf_tile origins reps, p ∈ origins) ∧
    ∀ o ∈ origins, (tf_tile origins reps).count o = reps := by
  refine ⟨tf_tile_length origins reps, fun p hp => tf_tile_mem hp, fun o ho => ?_⟩
  rw [tf_tile_count, List.count_eq_one_of_mem hnd ho, Nat.mul_one]

/-- Two concrete, distinct cascade origins. -/
def origins2 : List (Vec3 ℚ) := [⟨0, 0, 0⟩, ⟨100, 0, 0⟩]

theorem cascade_replication_witness :
    origins2.Nodup ∧
    ((tf_tile origins2 3).length = 3 * origins2.length ∧
     (∀ p ∈ tf_tile origins2 3, p ∈ origins2) ∧
     ∀ o ∈ origins2, (tf_tile origins2 3).count o = 3) :=
  ⟨by decide, cascade_replication origins2 3 (by decide)⟩

/-- C10: round-robin cascade layout: entry `i` of the tiled position batch
is origin number `i % C`; lanes of one cascade occupy one residue class
modulo `C`, interleaved across the batch. -/
theorem tf_tile_round_robin {α : Type} (l : List α) (n i : ℕ)
    (hl : 0 < l.length) (h : i < n * l.length) :
    (tf_tile l n)[i]? = l[i % l.length]? := by
  induction n generalizing i with
  | zero => exact absurd h (by omega)
  | succ n ih =>
      rw [tf_tile]
      rcases lt_or_le i l.length with hi | hi
      · rw [List.getElem?_append_left hi, Nat.mod_eq_of_lt hi]
      · rw [List.getElem?_append_right hi, ih (i - l.length) (by
          rw [Nat.succ_mul] at h
          omega)]
        congr 1
        exact (Nat.mod_eq_sub_mod hi).symm

theorem tf_tile_round_robin_witness :
    0 < origins2.length ∧ 3 < 2 * origins2.length ∧
    (tf_tile origins2 2)[3]? = origins2[3 % origins2.length]? :=
  ⟨by decide, by decide,
   tf_tile_round_robin origins2 2 3 (by decide) (by decide)⟩

/-! ### Scattering (`tf_sample_normal_vectors`, `tf_scatter`), over `ℝ` -/

/-- Euclidean norm of one row, `tf.norm(v, axis=-1)`. -/
noncomputable def rnorm (v : Vec3 ℝ) : ℝ := Real.sqrt (normSq v)

/-- One lane of `tf_sample_normal_vectors`, with the isotropic random draw
`w` made explicit: the cross product `n = tf.cross(w, v)` divided by its
norm, `n / tf.norm(n, ...)`. -/
noncomputable def tf_sample_normal_vectors (w v : Vec3 ℝ) : Vec3 ℝ :=
  (rnorm (cross w v))⁻¹ • cross w v

/-- Modelled from the spec: `tfq.rotate_vector_by_quaternion` comes from the
external `tfquaternion` dependency, whose code is not among this
repository's sources; section 9 of the specification gives the standard
rotation formula `v' = v + 2w(u×v) + 2(u×(u×v))` for the quaternion
`(w, u)`. -/
noncomputable def rotate_vector_by_quaternion (w : ℝ) (u v : Vec3 ℝ) : Vec3 ℝ :=
  v + (2 * w) • cross u v + (2 : ℝ) • cross u (cross u v)

/-- One lane of `tf_scatter`, with the uniform draw `u` of the inverse-CDF
angle sampling and the auxiliary isotropic draw `w` of
`tf_sample_normal_vectors` made explicit: `cos θ = 2 u^(1/19) - 1`,
half-angle terms by `tf.sqrt`, scaled axis `n = n̂ sin(θ/2)`, rotation by
the quaternion `(cos(θ/2), n)`. -/
noncomputable def tf_scatter (u : ℝ) (w v : Vec3 ℝ) : Vec3 ℝ :=
  let cosT := 2 * u ^ ((1 : ℝ) / 19) - 1
  let cosT2 := Real.sqrt ((cosT + 1) / 2)
  let sinT2 := Real.sqrt ((1 - cosT) / 2)
  rotate_vector_by_quaternion cosT2 (sinT2 • tf_sample_normal_vectors w v) v

theorem normSq_nonneg (v : Vec3 ℝ) : 0 ≤ normSq v := by
  unfold Vec3.normSq
  positivity

theorem normSq_eq_zero {v : Vec3 ℝ} : normSq v = 0 ↔ v = 0 := by
  constructor
  · intro h
    unfold Vec3.normSq at h
    ext <;> simp only [zero_x, zero_y, zero_z] <;>
      nlinarith [sq_nonneg v.x, sq_nonneg v.y, sq_nonneg v.z]
  · rintro rfl
    simp [Vec3.normSq]

theorem normSq_smul (c : ℝ) (v : Vec3 ℝ) : normSq (c • v) = c ^ 2 * normSq v := by
  simp only [Vec3.normSq, smul_x, smul_y, smul_z]
  ring

/-- Algebraic identity: the squared norm of the quaternion-rotation formula
differs from the input's squared norm by a multiple of
`w^2 + normSq u - 1`; for a unit quaternion the difference vanishes. -/
theorem rotate_normSq (w : ℝ) (u v : Vec3 ℝ) :
    normSq (rotate_vector_by_quaternion w u v) =
      normSq v + 4 * (w ^ 2 + normSq u - 1) * (normSq u * normSq v - dot u v ^ 2) := by
  simp only [rotate_vector_by_quaternion, Vec3.normSq, Vec3.cross, Vec3.dot,
    add_x, add_y, add_z, smul_x, smul_y, smul_z]
  ring

/-- A normalised nonzero cross product has squared norm one. -/
theorem normSq_tf_sample_normal_vectors (w v : Vec3 ℝ) (h : cross w v ≠ 0) :
    normSq (tf_sample_normal_vectors w v) = 1 := by
  have hnz : normSq (cross w v) ≠ 0 := fun h0 => h (normSq_eq_zero.mp h0)
  rw [tf_sample_normal_vectors, normSq_smul, rnorm, ← Real.sqrt_inv,
    Real.sq_sqrt (inv_nonneg.mpr (normSq_nonneg _))]
  exact inv_mul_cancel₀ hnz

/-- C4: unit-norm preservation by scattering: for a unit direction vector,
a uniform draw `u` in `[0,1]`, and an auxiliary draw whose cross product
with the direction is nonzero, the direction returned by `tf_scatter` has
unit norm (exact real arithmetic). -/
theorem tf_scatter_unit_norm (u : ℝ) (w v : Vec3 ℝ)
    (hv : normSq v = 1) (hu0 : 0 ≤ u) (hu1 : u ≤ 1)
    (hw : cross w v ≠ 0) :
    normSq (tf_scatter u w v) = 1 := by
  have hp0 : 0 ≤ u ^ ((1 : ℝ) / 19) := Real.rpow_nonneg hu0 _
  have hp1 : u ^ ((1 : ℝ) / 19) ≤ 1 := Real.rpow_le_one hu0 hu1 (by norm_num)
  have hnv := normSq_tf_sample_normal_vectors w v hw
  simp only [tf_scatter]
  set p := u ^ ((1 : ℝ) / 19) with hp
  rw [rotate_normSq, hv]
  have h0 : Real.sqrt ((2 * p - 1 + 1) / 2) ^ 2 +
      normSq (Real.sqrt ((1 - (2 * p - 1)) / 2) • tf_sample_normal_vectors w v) - 1 = 0 := by
    rw [normSq_smul, hnv, mul_one,
      Real.sq_sqrt (by linarith : (0 : ℝ) ≤ (2 * p - 1 + 1) / 2),
      Real.sq_sqrt (by linarith : (0 : ℝ) ≤ (1 - (2 * p - 1)) / 2)]
    ring
  rw [h0]
  ring

theorem tf_scatter_unit_norm_witness :
    normSq (⟨1, 0, 0⟩ : Vec3 ℝ) = 1 ∧ (0 : ℝ) ≤ 1 ∧ (1 : ℝ) ≤ 1 ∧
    cross (⟨0, 1, 0⟩ : Vec3 ℝ) ⟨1, 0, 0⟩ ≠ 0 ∧
    normSq (tf_scatter 1 ⟨0, 1, 0⟩ ⟨1, 0, 0⟩) = 1 := by
  have h1 : normSq (⟨1, 0, 0⟩ : Vec3 ℝ) = 1 := by
    simp [Vec3.normSq]
  have h4 : cross (⟨0, 1, 0⟩ : Vec3 ℝ) ⟨1, 0, 0⟩ ≠ 0 := by
    intro h
    have hz := congrArg Vec3.z h
    simp only [Vec3.cross, zero_z] at hz
    norm_num at hz
  exact ⟨h1, by norm_num, le_refl 1, h4,
    tf_scatter_unit_norm 1 ⟨0, 1, 0⟩ ⟨1, 0, 0⟩ h1 (by norm_num) (le_refl 1) h4⟩
